import Mathlib

/-!
Verification of the business-case generator's deterministic core.

JavaScript numbers are modelled as rationals (`ℚ`), `Math.round` as
Mathlib's `round` (both round half towards positive infinity), and
fallible JavaScript code as `Except`/`Option`-valued functions.
-/

namespace GenReport

/-- One entry of the projections array built by `calculateFinancialProjections`
in `src/app/api/generate-report/route.ts` (all three money fields are
`Math.round`ed before being pushed). -/
structure ProjectionEntry where
  year : ℕ
  revenue : ℤ
  customers : ℤ
  opex : ℤ
  deriving DecidableEq, Repr

/-- The body of the `for (let year = 1; year <= 5; year++)` loop of
`calculateFinancialProjections`: `n` iterations remain, `year` is the loop
counter, `customers` and `opex` are the mutable running values. -/
def projLoop (arpu growthRate : ℚ) : ℕ → ℕ → ℚ → ℚ → List ProjectionEntry
  | 0, _, _, _ => []
  | n + 1, year, customers, opex =>
      { year := year
        revenue := round (customers * arpu * 12)
        customers := round customers
        opex := round opex } ::
        projLoop arpu growthRate n (year + 1) (customers * (1 + growthRate))
          (opex * (11 / 10))

/-- The input record of `calculateFinancialProjections`. -/
structure ProjectionInput where
  initialCount : ℚ
  growthRate : ℚ
  arpu : ℚ
  opex : ℚ
  deriving DecidableEq, Repr

/-- `calculateFinancialProjections` from `src/app/api/generate-report/route.ts`:
five yearly entries with compound customer growth and 10%-per-year OPEX
inflation. -/
def calculateFinancialProjections (data : ProjectionInput) : List ProjectionEntry :=
  projLoop data.arpu data.growthRate 5 1 data.initialCount data.opex

theorem projLoop_length (a g : ℚ) :
    ∀ (n year : ℕ) (c o : ℚ), (projLoop a g n year c o).length = n := by
  intro n
  induction n with
  | zero => intro year c o; rfl
  | succ n ih =>
      intro year c o
      simp [projLoop, ih]

/-- Closed form for the loop: the `i`-th produced entry (0-based) records
year `year + i`, customers `c·(1+g)^i`, revenue `c·(1+g)^i·a·12` and opex
`o·1.1^i`, each rounded. -/
theorem projLoop_get? (a g : ℚ) :
    ∀ (n i year : ℕ) (c o : ℚ), i < n →
      (projLoop a g n year c o).get? i =
        some { year := year + i
               revenue := round (c * (1 + g) ^ i * a * 12)
               customers := round (c * (1 + g) ^ i)
               opex := round (o * (11 / 10) ^ i) } := by
  intro n
  induction n with
  | zero => intro i year c o h; omega
  | succ n ih =>
      intro i year c o h
      match i with
      | 0 => simp [projLoop]
      | i + 1 =>
          have h' : i < n := by omega
          have := ih i (year + 1) (c * (1 + g)) (o * (11 / 10)) h'
          simp only [projLoop, List.get?_cons_succ, this]
          congr 2 <;> [skip; ring_nf; ring_nf; ring_nf]
          omega

/-- The metric record returned by the main route's `calculateFinancialMetrics`
(only the four fields the function actually populates). -/
structure FinancialMetrics where
  npv : ℤ
  irr : ℤ
  paybackPeriod : ℕ
  roi : ℤ
  deriving DecidableEq, Repr

/-- The payback-period loop of `calculateFinancialMetrics`: running cumulative
cash flow starts at `-capex`; the first year whose cumulative flow is strictly
positive is returned (the `break` makes the `paybackPeriod === 0` guard
always true at that point); `0` if no year qualifies. -/
def paybackLoop : List ℚ → ℚ → ℕ → ℕ
  | [], _, _ => 0
  | cf :: rest, cumulative, i =>
      let c := cumulative + cf
      if 0 < c then i + 1 else paybackLoop rest c (i + 1)

/-- The indexed `reduce` computing NPV: `Σ_i cashFlows[i] / 1.1^i`. -/
def npvReduce (cashFlows : List ℚ) : ℚ :=
  cashFlows.enum.foldl (fun acc p => acc + p.2 / (11 / 10 : ℚ) ^ p.1) 0

/-- `calculateFinancialMetrics` from `src/app/api/generate-report/route.ts`:
discounted cash flow at a fixed 10% rate with `-capex` prepended, ROI over
capex, simplified IRR, and the payback loop. -/
def calculateFinancialMetrics (projections : List ProjectionEntry) (capex : ℚ) :
    FinancialMetrics :=
  let flows : List ℚ := projections.map fun p => (p.revenue : ℚ) - (p.opex : ℚ)
  let cashFlows : List ℚ := -capex :: flows
  let npv := npvReduce cashFlows
  let totalRevenue : ℚ := (projections.map fun p => (p.revenue : ℚ)).sum
  let totalOpex : ℚ := (projections.map fun p => (p.opex : ℚ)).sum
  let roi := (totalRevenue - totalOpex - capex) / capex * 100
  let irr := (totalRevenue - totalOpex - capex) / (capex * 5) * 100
  let paybackPeriod := paybackLoop flows (-capex) 0
  { npv := round npv
    irr := round irr
    paybackPeriod := paybackPeriod
    roi := round roi }

/-- The numeric blocks of the validated request body. -/
structure Financials where
  totalCost : ℚ
  capex : ℚ
  opex : ℚ
  deriving DecidableEq, Repr

structure CustomerBlock where
  initialCount : ℚ
  growthRate : ℚ
  arpu : ℚ
  deriving DecidableEq, Repr

/-- The validated `BusinessCaseData` record of the request body. -/
structure BusinessCaseData where
  projectName : String
  company : String
  country : String
  industry : String
  financials : Financials
  customers : CustomerBlock
  deriving DecidableEq, Repr

/-- The main route's `POST` handler pre-calculates projections with the
submitted growth percentage divided by 100. -/
def postProjections (d : BusinessCaseData) : List ProjectionEntry :=
  calculateFinancialProjections
    { initialCount := d.customers.initialCount
      growthRate := d.customers.growthRate / 100
      arpu := d.customers.arpu
      opex := d.financials.opex }

end GenReport

namespace TimelineRoute

/-- Input of the timeline-years variant of the generate-report route: its
schema replaces `totalCost` with `projectTimelineYears`. -/
structure TLInput where
  projectTimelineYears : ℕ
  capex : ℚ
  opex : ℚ
  initialCount : ℚ
  growthRate : ℚ
  arpu : ℚ
  deriving DecidableEq, Repr

/-- One projection entry of the timeline variant: only `customers` is rounded;
`revenue` and `opex` stay unrounded numbers. -/
structure TLEntry where
  year : ℕ
  revenue : ℚ
  customers : ℤ
  opex : ℚ
  deriving DecidableEq, Repr

/-- `generateFinancialProjections` of the timeline variant: closed-form per
year instead of running accumulators. -/
def generateFinancialProjections (data : TLInput) : List TLEntry :=
  (List.range data.projectTimelineYears).map fun k =>
    let year := k + 1
    let customers : ℤ :=
      round (data.initialCount * (1 + data.growthRate / 100) ^ (year - 1))
    let revenue := (customers : ℚ) * data.arpu * 12
    let opex := data.opex * (11 / 10 : ℚ) ^ (year - 1)
    { year := year, revenue := revenue, customers := customers, opex := opex }

/-- The timeline variant's payback loop: tests `cumulativeCashFlow >= 0`
(not `> 0`) and, when no year qualifies, leaves the default
`projectTimelineYears` (modelled by `none`, resolved by `getD` below). -/
def paybackLoop : List ℚ → ℚ → ℕ → Option ℕ
  | [], _, _ => none
  | cf :: rest, cumulative, i =>
      let c := cumulative + cf
      if 0 ≤ c then some (i + 1) else paybackLoop rest c (i + 1)

/-- The metric record of the timeline variant (none of the fields are
rounded before being returned). -/
structure TLMetrics where
  npv : ℚ
  roi : ℚ
  paybackPeriod : ℕ
  breakEvenPoint : ℤ
  cac : ℚ
  clv : ℚ
  grossMargin : List ℚ
  operatingMargin : List ℚ
  ebitda : List ℚ
  workingCapital : List ℚ
  deriving DecidableEq, Repr

/-- `calculateFinancialMetrics` of the timeline variant. ROI divides by
`capex + total opex`; NPV discounts year `i` flows by `1.1^(i+1)` starting
from `-capex` without a time-0 entry. `none` models the TypeError thrown by
`projections[0].customers` on an empty array. -/
def calculateFinancialMetrics (data : TLInput) (projections : List TLEntry) :
    Option TLMetrics :=
  let initialInvestment := data.capex
  let cashFlows := projections.map fun p => p.revenue - p.opex
  let npv := cashFlows.enum.foldl
    (fun acc p => acc + p.2 / (11 / 10 : ℚ) ^ (p.1 + 1)) (-initialInvestment)
  let totalRevenue := (projections.map (·.revenue)).sum
  let totalCosts := initialInvestment + (projections.map (·.opex)).sum
  let roi := (totalRevenue - totalCosts) / totalCosts * 100
  let paybackPeriod :=
    (paybackLoop cashFlows (-initialInvestment) 0).getD data.projectTimelineYears
  let averageRevenuePerCustomer := data.arpu * 12
  let firstYearOpex := data.opex
  let breakEvenPoint : ℤ := ⌈(firstYearOpex + initialInvestment) / averageRevenuePerCustomer⌉
  let marketingCost := firstYearOpex * (3 / 10)
  match projections.head? with
  | none => none
  | some p0 =>
      let cac := marketingCost / (p0.customers : ℚ)
      let clv := averageRevenuePerCustomer * 3
      let grossMargin := projections.map fun p =>
        (p.revenue - p.opex * (6 / 10)) / p.revenue * 100
      let operatingMargin := projections.map fun p =>
        (p.revenue - p.opex) / p.revenue * 100
      let ebitda := projections.map fun p => (p.revenue - p.opex) / p.revenue * 100
      let workingCapital := projections.map fun p => p.revenue * (2 / 10)
      some { npv := npv, roi := roi, paybackPeriod := paybackPeriod
             breakEvenPoint := breakEvenPoint, cac := cac, clv := clv
             grossMargin := grossMargin, operatingMargin := operatingMargin
             ebitda := ebitda, workingCapital := workingCapital }

end TimelineRoute

namespace ReportPreview

/-- The cost-breakdown pie-chart data of the charting `ReportPreview` variant:
fixed index accesses `financialProjections[0]` … `[4]`; `none` models the
TypeError JavaScript throws on an out-of-bounds access. (The CAPEX slice
really reads `projections[0].opex` in the source.) -/
def costBreakdown (ps : List GenReport.ProjectionEntry) :
    Option (List (String × ℤ)) := do
  let p0 ← ps.get? 0
  let p1 ← ps.get? 1
  let p2 ← ps.get? 2
  let p3 ← ps.get? 3
  let p4 ← ps.get? 4
  pure [("CAPEX", p0.opex), ("Year 1 OPEX", p0.opex), ("Year 2 OPEX", p1.opex),
    ("Year 3 OPEX", p2.opex), ("Year 4 OPEX", p3.opex), ("Year 5 OPEX", p4.opex)]

end ReportPreview

theorem projLoop_map_year (a g : ℚ) :
    ∀ (n year : ℕ) (c o : ℚ),
      (GenReport.projLoop a g n year c o).map (·.year) = List.range' year n := by
  intro n
  induction n with
  | zero => intro year c o; rfl
  | succ n ih => intro year c o; simp [GenReport.projLoop, List.range', ih]

theorem round_mono_alt {x y : ℚ} (h : x ≤ y) : round x ≤ round y := by
  rw [round_eq, round_eq]
  exact Int.floor_le_floor (by linarith)

/-- C1: for every business-case input with initial customer count `c` and
growth rate `g` (the submitted percentage divided by 100 by the route), the
`n`-th yearly entry (1 ≤ n ≤ 5) of `calculateFinancialProjections` has
customers `round (c·(1+g)^(n-1))` and revenue
`round (c·(1+g)^(n-1)·arpu·12)` where `arpu` is monthly revenue per user. -/
theorem claim_C1_projection_growth (d : GenReport.BusinessCaseData) (n : ℕ)
    (h1 : 1 ≤ n) (h5 : n ≤ 5) :
    ((GenReport.postProjections d).get? (n - 1)).map (·.customers) =
      some (round (d.customers.initialCount *
        (1 + d.customers.growthRate / 100) ^ (n - 1))) ∧
    ((GenReport.postProjections d).get? (n - 1)).map (·.revenue) =
      some (round (d.customers.initialCount *
        (1 + d.customers.growthRate / 100) ^ (n - 1) * d.customers.arpu * 12)) := by
  have h := GenReport.projLoop_get? d.customers.arpu (d.customers.growthRate / 100)
    5 (n - 1) 1 d.customers.initialCount d.financials.opex (by omega)
  have e : (GenReport.postProjections d).get? (n - 1) =
      (GenReport.projLoop d.customers.arpu (d.customers.growthRate / 100) 5 1
        d.customers.initialCount d.financials.opex).get? (n - 1) := rfl
  rw [e, h]
  exact ⟨rfl, rfl⟩

theorem claim_C1_projection_growth_witness :
    (((GenReport.postProjections
        ⟨"proj", "co", "US", "tech", ⟨160, 50, 10⟩, ⟨100, 50, 2⟩⟩).get? (2 - 1)).map
      (·.customers) = some 150) ∧
    (((GenReport.postProjections
        ⟨"proj", "co", "US", "tech", ⟨160, 50, 10⟩, ⟨100, 50, 2⟩⟩).get? (2 - 1)).map
      (·.revenue) = some 3600) := by
  have h := claim_C1_projection_growth
    ⟨"proj", "co", "US", "tech", ⟨160, 50, 10⟩, ⟨100, 50, 2⟩⟩ 2
    (by norm_num) (by norm_num)
  exact ⟨h.1.trans (by norm_num [round_eq]), h.2.trans (by norm_num [round_eq])⟩

/-- C2: for every projections array of 5 yearly entries and every capex, the
`npv` field of `calculateFinancialMetrics` is the rounded discounted cash
flow at a fixed 10% rate with `-capex` as the time-0 flow. -/
theorem claim_C2_npv (p1 p2 p3 p4 p5 : GenReport.ProjectionEntry) (capex : ℚ) :
    (GenReport.calculateFinancialMetrics [p1, p2, p3, p4, p5] capex).npv =
      round (-capex
        + ((p1.revenue : ℚ) - (p1.opex : ℚ)) / (11 / 10 : ℚ) ^ 1
        + ((p2.revenue : ℚ) - (p2.opex : ℚ)) / (11 / 10 : ℚ) ^ 2
        + ((p3.revenue : ℚ) - (p3.opex : ℚ)) / (11 / 10 : ℚ) ^ 3
        + ((p4.revenue : ℚ) - (p4.opex : ℚ)) / (11 / 10 : ℚ) ^ 4
        + ((p5.revenue : ℚ) - (p5.opex : ℚ)) / (11 / 10 : ℚ) ^ 5) := by
  simp only [GenReport.calculateFinancialMetrics, GenReport.npvReduce,
    List.map_cons, List.map_nil, List.enum, List.enumFrom, List.foldl]
  congr 1
  ring

/-- C3: the `n`-th yearly entry (1 ≤ n ≤ 5) of `calculateFinancialProjections`
has opex `round (opex₀ · 1.1^(n-1))`: operating expenditure inflates by
exactly 10% per year. -/
theorem claim_C3_opex_inflation (d : GenReport.ProjectionInput) (n : ℕ)
    (h1 : 1 ≤ n) (h5 : n ≤ 5) :
    ((GenReport.calculateFinancialProjections d).get? (n - 1)).map (·.opex) =
      some (round (d.opex * (11 / 10 : ℚ) ^ (n - 1))) := by
  have h := GenReport.projLoop_get? d.arpu d.growthRate 5 (n - 1) 1
    d.initialCount d.opex (by omega)
  have e : (GenReport.calculateFinancialProjections d).get? (n - 1) =
      (GenReport.projLoop d.arpu d.growthRate 5 1 d.initialCount d.opex).get?
        (n - 1) := rfl
  rw [e, h]
  rfl

theorem claim_C3_opex_inflation_witness :
    ((GenReport.calculateFinancialProjections ⟨100, 0, 1, 100⟩).get? (3 - 1)).map
      (·.opex) = some 121 :=
  (claim_C3_opex_inflation ⟨100, 0, 1, 100⟩ 3 (by norm_num) (by norm_num)).trans
    (by norm_num [round_eq])

/-- C9: `calculateFinancialProjections` always returns exactly 5 entries with
year fields 1 through 5 in order, so the fixed index accesses
`financialProjections[0]` … `[4]` in `ReportPreview`'s cost-breakdown
construction are in bounds. -/
theorem claim_C9_five_entries (d : GenReport.ProjectionInput) :
    (GenReport.calculateFinancialProjections d).map (·.year) = [1, 2, 3, 4, 5] ∧
    (ReportPreview.costBreakdown (GenReport.calculateFinancialProjections d)).isSome := by
  constructor
  · rw [GenReport.calculateFinancialProjections, projLoop_map_year]
    rfl
  · have h0 := GenReport.projLoop_get? d.arpu d.growthRate 5 0 1 d.initialCount d.opex
      (by norm_num)
    have h1 := GenReport.projLoop_get? d.arpu d.growthRate 5 1 1 d.initialCount d.opex
      (by norm_num)
    have h2 := GenReport.projLoop_get? d.arpu d.growthRate 5 2 1 d.initialCount d.opex
      (by norm_num)
    have h3 := GenReport.projLoop_get? d.arpu d.growthRate 5 3 1 d.initialCount d.opex
      (by norm_num)
    have h4 := GenReport.projLoop_get? d.arpu d.growthRate 5 4 1 d.initialCount d.opex
      (by norm_num)
    rw [List.get?_eq_getElem?] at h0 h1 h2 h3 h4
    simp [ReportPreview.costBreakdown, GenReport.calculateFinancialProjections,
      h0, h1, h2, h3, h4, Option.bind]

/-- C10 as stated is false: with growth rate 1 ≥ 0 but a negative initial
customer count, the customers and revenue fields strictly decrease from
year 1 to year 2. -/
theorem claim_C10_counterexample :
    (0 : ℚ) ≤ (⟨-1, 1, 1, 1⟩ : GenReport.ProjectionInput).growthRate ∧
    ((GenReport.calculateFinancialProjections ⟨-1, 1, 1, 1⟩).get? 0).map
      (·.customers) = some (-1) ∧
    ((GenReport.calculateFinancialProjections ⟨-1, 1, 1, 1⟩).get? 1).map
      (·.customers) = some (-2) ∧
    ((GenReport.calculateFinancialProjections ⟨-1, 1, 1, 1⟩).get? 0).map
      (·.revenue) = some (-12) ∧
    ((GenReport.calculateFinancialProjections ⟨-1, 1, 1, 1⟩).get? 1).map
      (·.revenue) = some (-24) ∧
    (-2 : ℤ) < -1 ∧ (-24 : ℤ) < -12 := by
  refine ⟨by norm_num, ?_, ?_, ?_, ?_, by norm_num, by norm_num⟩ <;>
    norm_num [GenReport.calculateFinancialProjections, GenReport.projLoop, round_eq]

/-- C10 amended: when additionally the initial count and the ARPU are
non-negative, customers and revenue are non-decreasing in the year index;
when moreover opex is positive, the underlying (pre-rounding) opex values
are strictly increasing and the rounded opex entries non-decreasing. -/
theorem claim_C10_monotone (d : GenReport.ProjectionInput) (i j : ℕ)
    (hij : i ≤ j) (hj : j < 5)
    (hg : 0 ≤ d.growthRate) (hc : 0 ≤ d.initialCount) (ha : 0 ≤ d.arpu)
    (ei ej : GenReport.ProjectionEntry)
    (hei : (GenReport.calculateFinancialProjections d).get? i = some ei)
    (hej : (GenReport.calculateFinancialProjections d).get? j = some ej) :
    ei.customers ≤ ej.customers ∧ ei.revenue ≤ ej.revenue ∧
      (0 < d.opex →
        d.opex * (11 / 10 : ℚ) ^ i < d.opex * (11 / 10 : ℚ) ^ j ∨ i = j) ∧
      (0 < d.opex → ei.opex ≤ ej.opex) := by
  rw [GenReport.calculateFinancialProjections,
    GenReport.projLoop_get? d.arpu d.growthRate 5 i 1 d.initialCount d.opex
      (by omega)] at hei
  rw [GenReport.calculateFinancialProjections,
    GenReport.projLoop_get? d.arpu d.growthRate 5 j 1 d.initialCount d.opex hj] at hej
  have hei' := Option.some.inj hei
  have hej' := Option.some.inj hej
  subst hei' hej'
  have hgrow : (1 : ℚ) ≤ 1 + d.growthRate := by linarith
  have hpow : (1 + d.growthRate) ^ i ≤ (1 + d.growthRate) ^ j :=
    pow_le_pow_right₀ hgrow hij
  have hpownn : (0 : ℚ) ≤ (1 + d.growthRate) ^ i := by positivity
  have hcust : d.initialCount * (1 + d.growthRate) ^ i ≤
      d.initialCount * (1 + d.growthRate) ^ j :=
    mul_le_mul_of_nonneg_left hpow hc
  refine ⟨round_mono_alt hcust, round_mono_alt ?_, ?_, ?_⟩
  · have : d.initialCount * (1 + d.growthRate) ^ i * d.arpu ≤
        d.initialCount * (1 + d.growthRate) ^ j * d.arpu :=
      mul_le_mul_of_nonneg_right hcust ha
    linarith
  · intro ho
    rcases Nat.lt_or_ge i j with hlt | hge
    · left
      exact mul_lt_mul_of_pos_left (pow_lt_pow_right₀ (by norm_num) hlt) ho
    · right; omega
  · intro ho
    refine round_mono_alt (mul_le_mul_of_nonneg_left
      (pow_le_pow_right₀ (by norm_num) hij) ho.le)

theorem claim_C10_monotone_witness :
    (⟨1, 12, 1, 1⟩ : GenReport.ProjectionEntry).customers ≤
      (⟨2, 24, 2, 1⟩ : GenReport.ProjectionEntry).customers ∧
    (⟨1, 12, 1, 1⟩ : GenReport.ProjectionEntry).revenue ≤
      (⟨2, 24, 2, 1⟩ : GenReport.ProjectionEntry).revenue ∧
    (0 < (⟨1, 1, 1, 1⟩ : GenReport.ProjectionInput).opex →
      (⟨1, 1, 1, 1⟩ : GenReport.ProjectionInput).opex * (11 / 10 : ℚ) ^ 0 <
        (⟨1, 1, 1, 1⟩ : GenReport.ProjectionInput).opex * (11 / 10 : ℚ) ^ 1 ∨
        0 = 1) ∧
    (0 < (⟨1, 1, 1, 1⟩ : GenReport.ProjectionInput).opex →
      (⟨1, 12, 1, 1⟩ : GenReport.ProjectionEntry).opex ≤
        (⟨2, 24, 2, 1⟩ : GenReport.ProjectionEntry).opex) :=
  claim_C10_monotone ⟨1, 1, 1, 1⟩ 0 1 (by norm_num) (by norm_num) (by norm_num)
    (by norm_num) (by norm_num) ⟨1, 12, 1, 1⟩ ⟨2, 24, 2, 1⟩
    (by norm_num [GenReport.calculateFinancialProjections, GenReport.projLoop, round_eq])
    (by norm_num [GenReport.calculateFinancialProjections, GenReport.projLoop, round_eq])

/-- Shared concrete 5-year projections for the copy-paste drift claim:
revenues 1100, 600, 100, 100, 100 and opex 100 each year. -/
def c4Projections : List GenReport.ProjectionEntry :=
  [⟨1, 1100, 10, 100⟩, ⟨2, 600, 10, 100⟩, ⟨3, 100, 10, 100⟩,
   ⟨4, 100, 10, 100⟩, ⟨5, 100, 10, 100⟩]

/-- The same projections as `c4Projections`, in the timeline variant's entry
type. -/
def c4TLProjections : List TimelineRoute.TLEntry :=
  [⟨1, 1100, 10, 100⟩, ⟨2, 600, 10, 100⟩, ⟨3, 100, 10, 100⟩,
   ⟨4, 100, 10, 100⟩, ⟨5, 100, 10, 100⟩]

def c4TLInput : TimelineRoute.TLInput :=
  { projectTimelineYears := 5, capex := 1000, opex := 100
    initialCount := 10, growthRate := 0, arpu := 1 }

/-- C4: the duplicated metric computations disagree. On the same 5-year
projections with capex 1000, the main route's `calculateFinancialMetrics`
returns roi 50 (net profit over capex) and payback 2 (first year with
cumulative flow strictly positive, default 0), while the timeline variant
returns roi 100/3 (net profit over capex + total opex) and payback 1
(`>= 0` test makes the exactly-break-even first year count). -/
theorem claim_C4_metric_drift :
    (GenReport.calculateFinancialMetrics c4Projections 1000).roi = 50 ∧
    (TimelineRoute.calculateFinancialMetrics c4TLInput c4TLProjections).map
      (·.roi) = some (100 / 3) ∧
    (GenReport.calculateFinancialMetrics c4Projections 1000).paybackPeriod = 2 ∧
    (TimelineRoute.calculateFinancialMetrics c4TLInput c4TLProjections).map
      (·.paybackPeriod) = some 1 ∧
    (50 : ℚ) ≠ 100 / 3 ∧ (2 : ℕ) ≠ 1 := by
  refine ⟨?_, ?_, ?_, ?_, by norm_num, by norm_num⟩ <;>
    norm_num [GenReport.calculateFinancialMetrics, GenReport.npvReduce,
      GenReport.paybackLoop, TimelineRoute.calculateFinancialMetrics,
      TimelineRoute.paybackLoop, c4Projections, c4TLProjections, c4TLInput,
      round_eq, List.enum, List.enumFrom]

/-- JavaScript's `String.prototype.indexOf` for a single character: the least
index holding `c`; `none` models the `-1` result. -/
def idxOfChar : List Char → Char → Option ℕ
  | [], _ => none
  | a :: rest, c => if a = c then some 0 else (idxOfChar rest c).map (· + 1)

/-- JavaScript's `String.prototype.lastIndexOf` for a single character: the
greatest index holding `c`; `none` models the `-1` result. -/
def lastIdxOfChar : List Char → Char → Option ℕ
  | [], _ => none
  | a :: rest, c =>
      match lastIdxOfChar rest c with
      | some k => some (k + 1)
      | none => if a = c then some 0 else none

/-- `cleanJsonResponse` (identical in both generate-report routes): throw when
either brace is missing, otherwise `text.slice(startIndex, endIndex + 1)`. -/
def cleanJsonResponse (text : String) : Except String String :=
  let cs := text.toList
  match idxOfChar cs '\x7b', lastIdxOfChar cs '\x7d' with
  | some startIndex, some endIndex =>
      .ok (((cs.drop startIndex).take (endIndex + 1 - startIndex)).asString)
  | _, _ => .error "No valid JSON object found in response"

theorem idxOfChar_eq_none {c : Char} :
    ∀ {cs : List Char}, idxOfChar cs c = none ↔ c ∉ cs := by
  intro cs
  induction cs with
  | nil => simp [idxOfChar]
  | cons a rest ih =>
      by_cases h : a = c
      · subst h; simp [idxOfChar]
      · simp [idxOfChar, h, Option.map_eq_none', ih, Ne.symm h]

theorem lastIdxOfChar_eq_none {c : Char} :
    ∀ {cs : List Char}, lastIdxOfChar cs c = none ↔ c ∉ cs := by
  intro cs
  induction cs with
  | nil => simp [lastIdxOfChar]
  | cons a rest ih =>
      simp only [lastIdxOfChar, List.mem_cons, not_or]
      cases hr : lastIdxOfChar rest c with
      | some k =>
          have hmem : c ∈ rest := by
            by_contra hmem
            have := ih.mpr hmem
            rw [hr] at this
            exact Option.some_ne_none k this
          simp [hmem]
      | none =>
          have hrest : c ∉ rest := ih.mp hr
          by_cases h : a = c
          · subst h; simp
          · simp [h, hrest, Ne.symm h]

theorem idxOfChar_eq_some_of_first {c : Char} :
    ∀ {cs : List Char} {i : ℕ}, cs.get? i = some c →
      (∀ k, k < i → cs.get? k ≠ some c) → idxOfChar cs c = some i := by
  intro cs
  induction cs with
  | nil => intro i hi _; simp at hi
  | cons a rest ih =>
      intro i hi hfirst
      match i with
      | 0 =>
          simp only [List.get?_cons_zero, Option.some.injEq] at hi
          simp [idxOfChar, hi]
      | i + 1 =>
          have ha : a ≠ c := by
            intro h
            exact hfirst 0 (Nat.succ_pos i) (by simp [h])
          simp only [List.get?_cons_succ] at hi
          have := ih hi fun k hk => by
            have := hfirst (k + 1) (by omega)
            simpa using this
          simp [idxOfChar, ha, this]

theorem lastIdxOfChar_eq_some_of_last {c : Char} :
    ∀ {cs : List Char} {j : ℕ}, cs.get? j = some c →
      (∀ k, k < cs.length → j < k → cs.get? k ≠ some c) →
      lastIdxOfChar cs c = some j := by
  intro cs
  induction cs with
  | nil => intro j hj _; simp at hj
  | cons a rest ih =>
      intro j hj hlast
      match j with
      | 0 =>
          simp only [List.get?_cons_zero, Option.some.injEq] at hj
          have hrest : c ∉ rest := by
            intro hmem
            obtain ⟨k, hck⟩ := List.mem_iff_get?.mp hmem
            have hklen : k < rest.length := by
              by_contra hge
              rw [List.get?_eq_none.mpr (by omega)] at hck
              cases hck
            exact hlast (k + 1) (by simp; omega) (Nat.succ_pos k) (by simpa using hck)
          simp [lastIdxOfChar, lastIdxOfChar_eq_none.mpr hrest, hj]
      | j + 1 =>
          simp only [List.get?_cons_succ] at hj
          have := ih hj fun k hk hjk => by
            have := hlast (k + 1) (by simpa using Nat.succ_lt_succ hk) (by omega)
            simpa using this
          simp [lastIdxOfChar, this]

/-- C8: `cleanJsonResponse` throws its "No valid JSON object found in
response" error iff the input is missing a `{` or a `}`; whenever both are
present it returns the slice from the first `{` through the last `}`
inclusive (the empty slice when the last `}` precedes the first `{`). -/
theorem claim_C8_clean_json (s : String) :
    (cleanJsonResponse s = .error "No valid JSON object found in response" ↔
      ('\x7b' ∉ s.toList ∨ '\x7d' ∉ s.toList)) ∧
    (∀ i j : ℕ,
      s.toList.get? i = some '\x7b' →
      (∀ k, k < i → s.toList.get? k ≠ some '\x7b') →
      s.toList.get? j = some '\x7d' →
      (∀ k, k < s.toList.length → j < k → s.toList.get? k ≠ some '\x7d') →
      cleanJsonResponse s =
        .ok (((s.toList.drop i).take (j + 1 - i)).asString)) := by
  constructor
  · simp only [cleanJsonResponse]
    cases hf : idxOfChar s.toList '\x7b' with
    | none =>
        cases hl : lastIdxOfChar s.toList '\x7d' <;>
          exact iff_of_true rfl (Or.inl (idxOfChar_eq_none.mp hf))
    | some i =>
        have hmem : '\x7b' ∈ s.toList := by
          by_contra hmem
          rw [idxOfChar_eq_none.mpr hmem] at hf
          cases hf
        cases hl : lastIdxOfChar s.toList '\x7d' with
        | none => exact iff_of_true rfl (Or.inr (lastIdxOfChar_eq_none.mp hl))
        | some j =>
            have hmem' : '\x7d' ∈ s.toList := by
              by_contra hmem'
              rw [lastIdxOfChar_eq_none.mpr hmem'] at hl
              cases hl
            refine iff_of_false (fun h => by cases h) ?_
            push_neg
            exact ⟨hmem, hmem'⟩
  · intro i j hi hifirst hj hjlast
    simp only [cleanJsonResponse]
    rw [idxOfChar_eq_some_of_first hi hifirst,
      lastIdxOfChar_eq_some_of_last hj hjlast]

theorem claim_C8_clean_json_witness :
    cleanJsonResponse "ab\x7bcd\x7de" =
      .ok ((("ab\x7bcd\x7de".toList.drop 2).take (5 + 1 - 2)).asString) ∧
    ((("ab\x7bcd\x7de".toList.drop 2).take (5 + 1 - 2)).asString = "\x7bcd\x7d") :=
  ⟨(claim_C8_clean_json "ab\x7bcd\x7de").2 2 5 (by decide) (by decide)
      (by decide) (by decide),
    by decide⟩

/-- A JavaScript JSON value: the result of a successful `JSON.parse`.
`JSON.parse` itself is a vendor builtin, so the parsing functions below take
its outcome as a `parse : String → Option Json` argument. -/
inductive Json where
  | null
  | bool (b : Bool)
  | num (q : ℚ)
  | str (s : String)
  | arr (elems : List Json)
  | obj (fields : List (String × Json))

/-- Property access `v[k]`: `none` models `undefined` (absent key or access
on a primitive). -/
def jsGetField : Json → String → Option Json
  | .obj fields, k => (fields.find? fun f => f.1 == k).map (·.2)
  | _, _ => none

/-- Property assignment `v[k] = w` on an object; assignment on a primitive is
silently dropped. -/
def jsSetField : Json → String → Json → Json
  | .obj fields, k, v =>
      if (fields.find? fun f => f.1 == k).isSome then
        .obj (fields.map fun f => if f.1 == k then (k, v) else f)
      else .obj (fields ++ [(k, v)])
  | j, _, _ => j

/-- JavaScript truthiness of a (possibly `undefined`) value. -/
def jsTruthy : Option Json → Bool
  | none => false
  | some .null => false
  | some (.bool b) => b
  | some (.num q) => decide (q ≠ 0)
  | some (.str s) => decide (s ≠ "")
  | some (.arr _) => true
  | some (.obj _) => true

/-- `Array.isArray`. -/
def jsIsArray : Option Json → Bool
  | some (.arr _) => true
  | _ => false

mutual

/-- JavaScript's `String(x)` coercion of a parsed JSON value. -/
def jsToString : Json → String
  | .null => "null"
  | .bool true => "true"
  | .bool false => "false"
  | .num q => toString q
  | .str s => s
  | .arr xs => jsToStringList xs
  | .obj _ => "[object Object]"

def jsToStringList : List Json → String
  | [] => ""
  | [x] => jsToString x
  | x :: rest => jsToString x ++ "," ++ jsToStringList rest

end

namespace GenReport

/-- The risk-analysis record: five plain-text sections. -/
structure RiskAnalysis where
  risks : String
  impactAssessment : String
  mitigationStrategies : String
  contingencyPlans : String
  riskMonitoringApproach : String
  deriving DecidableEq, Repr

/-- The `.replace(/\\n/g, '\n')` applied to every extracted section. -/
def fixNewlines (s : String) : String := s.replace "\\n" "\n"

def requiredRiskFields : List String :=
  ["risks", "impactAssessment", "mitigationStrategies", "contingencyPlans",
   "riskMonitoringApproach"]

/-- The inner `try` of `generateRiskAnalysis`: clean, parse, check the five
required fields, coerce each to a string with newline fixing. `none` models
any error thrown inside the block (no brace, `JSON.parse` failure, missing
field, or the `in` operator applied to a non-object). -/
def parseRiskResponse (parse : String → Option Json) (content : String) :
    Option RiskAnalysis := do
  let cleaned ← (cleanJsonResponse content).toOption
  let parsed ← parse cleaned
  match parsed with
  | .obj _ =>
      if requiredRiskFields.all fun f => (jsGetField parsed f).isSome then
        some
          { risks := fixNewlines (jsToString ((jsGetField parsed "risks").getD .null))
            impactAssessment :=
              fixNewlines (jsToString ((jsGetField parsed "impactAssessment").getD .null))
            mitigationStrategies :=
              fixNewlines (jsToString ((jsGetField parsed "mitigationStrategies").getD .null))
            contingencyPlans :=
              fixNewlines (jsToString ((jsGetField parsed "contingencyPlans").getD .null))
            riskMonitoringApproach :=
              fixNewlines (jsToString ((jsGetField parsed "riskMonitoringApproach").getD .null)) }
      else none
  | _ => none

/-- The hardcoded fallback block returned by the inner `catch (parseError)`
of `generateRiskAnalysis`. -/
def riskParseFallback : RiskAnalysis :=
  { risks := "• Market Risk: Potential market volatility\n• Financial Risk: Investment uncertainty\n• Operational Risk: Process inefficiencies\n• Technical Risk: Implementation challenges\n• Regulatory Risk: Compliance requirements"
    impactAssessment := "• High Impact Risks:\n- Market volatility (High)\n- Financial uncertainty (High)\n\n• Medium Impact Risks:\n- Operational inefficiencies (Medium)\n\n• Low Impact Risks:\n- Minor technical issues (Low)"
    mitigationStrategies := "• Diversification of market approach\n• Strong financial controls\n• Regular operational reviews\n• Technical redundancy measures\n• Compliance monitoring"
    contingencyPlans := "• Market backup strategies\n• Financial reserves allocation\n• Operational backup procedures\n• Technical fallback solutions\n• Regulatory compliance plans"
    riskMonitoringApproach := "• Weekly risk reviews\n• Monthly KPI monitoring\n• Quarterly assessments\n• Annual strategic review" }

/-- The basic fallback block returned by the outer `catch (error)` of
`generateRiskAnalysis`. -/
def riskBasicFallback : RiskAnalysis :=
  { risks := "• Market Risk\n• Financial Risk\n• Operational Risk\n• Technical Risk\n• Regulatory Risk"
    impactAssessment := "• High Impact Risks\n• Medium Impact Risks\n• Low Impact Risks"
    mitigationStrategies := "• Risk mitigation strategy 1\n• Risk mitigation strategy 2\n• Risk mitigation strategy 3"
    contingencyPlans := "• Contingency plan 1\n• Contingency plan 2\n• Contingency plan 3"
    riskMonitoringApproach := "• Regular monitoring\n• KPI tracking\n• Periodic reviews" }

/-- `generateRiskAnalysis`, given the OpenAI response content (`none` models
a null message). Missing or empty content throws before the inner `try` and
lands in the outer catch (basic fallback); a failing parse lands in the inner
catch (detailed fallback); the function is total and never propagates an
error. -/
def generateRiskAnalysis (parse : String → Option Json) (content : Option String) :
    RiskAnalysis :=
  match content with
  | none => riskBasicFallback
  | some c =>
      if c = "" then riskBasicFallback
      else (parseRiskResponse parse c).getD riskParseFallback

/-- `generateMarketAnalysis` runs `JSON.parse(cleanJsonResponse(content || '\x7b\x7d'))`
with no try/catch of its own: cleaning or parse failures propagate as thrown
errors (to the route's catch). -/
def generateMarketAnalysis (parse : String → Option Json) (content : Option String) :
    Except String Json := do
  let c := match content with
    | none => "\x7b\x7d"
    | some s => if s = "" then "\x7b\x7d" else s
  let cleaned ← cleanJsonResponse c
  match parse cleaned with
  | some v => pure v
  | none => .error "JSON.parse threw on the market analysis response"

/-- The final-report parse block of the main route's `POST`: clean + parse +
structural validation + overriding the LLM copy with the pre-calculated
projections, metrics, market analysis and risk assessment. Every failure in
the block is rethrown as a "Failed to parse OpenAI response" error — there
is no fallback content here. -/
def parseFinalReport (parse : String → Option Json)
    (projections marketAnalysis riskAssessment metrics : Json)
    (result : String) : Except String Json :=
  match cleanJsonResponse result with
  | .error _ => .error "Failed to parse OpenAI response as JSON."
  | .ok cleaned =>
      match parse cleaned with
      | none => .error "Failed to parse OpenAI response as JSON."
      | some parsed =>
          if !jsTruthy (jsGetField parsed "executiveSummary") ||
              !jsIsArray (jsGetField parsed "financialProjections") then
            .error "Failed to parse OpenAI response as JSON. Error: Invalid report structure"
          else
            match jsGetField parsed "financialAnalysis" with
            | some (.obj fa) =>
                .ok (jsSetField (jsSetField (jsSetField (jsSetField parsed
                  "financialProjections" projections)
                  "financialAnalysis" (jsSetField (.obj fa) "metrics" metrics))
                  "marketAnalysis" marketAnalysis)
                  "riskAssessment" riskAssessment)
            | _ => .error "Failed to parse OpenAI response as JSON. Error: TypeError"

end GenReport

/-- A route response body: a JSON payload or a binary file download. -/
inductive ResponseBody where
  | json (j : Json)
  | file (contentType : String) (filename : String)

structure HttpResponse where
  status : ℕ
  body : ResponseBody

/-- The main generate-report `POST` seen at its catch boundary: a successful
pipeline returns the report JSON, any thrown error message `e` is caught and
converted to status 500 with body `{error, details}`. -/
def postGenerateReport (result : Except String Json) : HttpResponse :=
  match result with
  | .ok report => { status := 200, body := .json report }
  | .error e =>
      { status := 500
        body := .json (.obj [("error", .str "Failed to generate report"),
          ("details", .str e)]) }

/-- `/api/export/pdf`: the catch returns `{error: 'Failed to generate PDF'}`
with status 500 — no details field. -/
def postExportPdf (result : Except String Unit) : HttpResponse :=
  match result with
  | .ok _ =>
      { status := 200
        body := .file "application/pdf" "business-case-report.pdf" }
  | .error _ =>
      { status := 500
        body := .json (.obj [("error", .str "Failed to generate PDF")]) }

/-- `/api/export/docx`: the catch returns `{error: 'Failed to generate DOCX'}`
with status 500 — no details field. -/
def postExportDocx (result : Except String Unit) : HttpResponse :=
  match result with
  | .ok _ =>
      { status := 200
        body := .file
          "application/vnd.openxmlformats-officedocument.wordprocessingml.document"
          "business-case-report.docx" }
  | .error _ =>
      { status := 500
        body := .json (.obj [("error", .str "Failed to generate DOCX")]) }

/-- Read a top-level field of a JSON response body. -/
def responseJsonField (r : HttpResponse) (k : String) : Option Json :=
  match r.body with
  | .json j => jsGetField j k
  | .file _ _ => none

/-- C5 as stated is false: the pdf export route's error response carries an
error field but no details field. -/
theorem claim_C5_counterexample :
    (postExportPdf (.error "boom")).status = 500 ∧
    responseJsonField (postExportPdf (.error "boom")) "error" =
      some (.str "Failed to generate PDF") ∧
    responseJsonField (postExportPdf (.error "boom")) "details" = none :=
  ⟨rfl, rfl, rfl⟩

/-- C5 amended: every caught error produces an HTTP 500 JSON response; the
generate-report route's body has both an error and a details field, while
the export routes' bodies have only an error field. -/
theorem claim_C5_error_responses (e : String) :
    (postGenerateReport (.error e)).status = 500 ∧
    responseJsonField (postGenerateReport (.error e)) "error" =
      some (.str "Failed to generate report") ∧
    responseJsonField (postGenerateReport (.error e)) "details" =
      some (.str e) ∧
    (postExportPdf (.error e)).status = 500 ∧
    responseJsonField (postExportPdf (.error e)) "error" =
      some (.str "Failed to generate PDF") ∧
    responseJsonField (postExportPdf (.error e)) "details" = none ∧
    (postExportDocx (.error e)).status = 500 ∧
    responseJsonField (postExportDocx (.error e)) "error" =
      some (.str "Failed to generate DOCX") ∧
    responseJsonField (postExportDocx (.error e)) "details" = none := by
  refine ⟨rfl, ?_, ?_, rfl, rfl, rfl, rfl, rfl, rfl⟩ <;>
    simp [postGenerateReport, responseJsonField, jsGetField, List.find?]

/-- C6 as stated is false beyond `generateRiskAnalysis`: on a malformed LLM
response with no braces, the risk analysis falls back to the hardcoded block,
but the market analysis and the final report parse propagate errors instead
of substituting fallback content. -/
theorem claim_C6_counterexample :
    GenReport.generateRiskAnalysis (fun _ => none) (some "xyz") =
      GenReport.riskParseFallback ∧
    GenReport.generateMarketAnalysis (fun _ => none) (some "xyz") =
      .error "No valid JSON object found in response" ∧
    GenReport.parseFinalReport (fun _ => none) .null .null .null .null "xyz" =
      .error "Failed to parse OpenAI response as JSON." :=
  ⟨rfl, rfl, rfl⟩

/-- C6 amended: on every malformed (uncleanable or unparseable) LLM response,
`generateRiskAnalysis` never propagates the failure and returns the fixed
five-field fallback record, while `generateMarketAnalysis` and the final
report parse propagate the failure as a thrown error to the route's catch. -/
theorem claim_C6_fallback_scope (parse : String → Option Json) (content : String)
    (pj mj rj met : Json)
    (hne : content ≠ "")
    (hmal : ∀ s, cleanJsonResponse content = .ok s → parse s = none) :
    GenReport.generateRiskAnalysis parse (some content) =
      GenReport.riskParseFallback ∧
    (GenReport.generateMarketAnalysis parse (some content)).toOption = none ∧
    (GenReport.parseFinalReport parse pj mj rj met content).toOption = none := by
  have hrisk : GenReport.parseRiskResponse parse content = none := by
    rw [GenReport.parseRiskResponse]
    cases hc : cleanJsonResponse content with
    | error e => rfl
    | ok s => simp [Except.toOption, hmal s hc]
  refine ⟨?_, ?_, ?_⟩
  · rw [GenReport.generateRiskAnalysis]
    simp [hne, hrisk]
  · rw [GenReport.generateMarketAnalysis]
    simp only [hne]
    cases hc : cleanJsonResponse content with
    | error e => simp [hc, Except.toOption, Bind.bind, Except.bind]
    | ok s => simp [hc, hmal s hc, Except.toOption, Bind.bind, Except.bind]
  · rw [GenReport.parseFinalReport]
    cases hc : cleanJsonResponse content with
    | error e => rfl
    | ok s => simp [hmal s hc, Except.toOption]

theorem claim_C6_fallback_scope_witness :
    GenReport.generateRiskAnalysis (fun _ => none) (some "\x7b\x7d") =
      GenReport.riskParseFallback ∧
    (GenReport.generateMarketAnalysis (fun _ => none) (some "\x7b\x7d")).toOption =
      none ∧
    (GenReport.parseFinalReport (fun _ => none) .null .null .null .null
      "\x7b\x7d").toOption = none :=
  claim_C6_fallback_scope (fun _ => none) "\x7b\x7d" .null .null .null .null
    (by decide) (fun _ _ => rfl)

namespace FormSchema

/-- The zod `businessCaseSchema` of `BusinessCaseForm.tsx` (the charting
variant): string length minimums (3/2/2/2), non-negative money fields, the
cross-field `refine` totalCost ≥ capex + opex, initial customer count at
least 1, and a growth-rate range of 0 to 100. -/
def businessCaseSchemaValid (d : GenReport.BusinessCaseData) : Bool :=
  decide (3 ≤ d.projectName.length) && decide (2 ≤ d.company.length) &&
  decide (2 ≤ d.country.length) && decide (2 ≤ d.industry.length) &&
  decide (0 ≤ d.financials.totalCost) && decide (0 ≤ d.financials.capex) &&
  decide (0 ≤ d.financials.opex) &&
  decide (d.financials.capex + d.financials.opex ≤ d.financials.totalCost) &&
  decide (1 ≤ d.customers.initialCount) &&
  decide (0 ≤ d.customers.growthRate) && decide (d.customers.growthRate ≤ 100) &&
  decide (0 ≤ d.customers.arpu)

/-- Modelled from the spec's words for comparison: only non-negativity of the
numeric fields and the string length minimums, with no cross-field or range
invariants. -/
def specClaimedConstraints (d : GenReport.BusinessCaseData) : Bool :=
  decide (3 ≤ d.projectName.length) && decide (2 ≤ d.company.length) &&
  decide (2 ≤ d.country.length) && decide (2 ≤ d.industry.length) &&
  decide (0 ≤ d.financials.totalCost) && decide (0 ≤ d.financials.capex) &&
  decide (0 ≤ d.financials.opex) &&
  decide (0 ≤ d.customers.initialCount) &&
  decide (0 ≤ d.customers.growthRate) && decide (0 ≤ d.customers.arpu)

end FormSchema

/-- C7 as stated is false: this record satisfies every claimed constraint
(non-negative numbers, string minimums) yet the schema rejects it — the
cross-field `refine` requires totalCost ≥ capex + opex. -/
theorem claim_C7_counterexample :
    FormSchema.specClaimedConstraints
      ⟨"abc", "co", "US", "IT", ⟨0, 100, 0⟩, ⟨1, 0, 0⟩⟩ = true ∧
    FormSchema.businessCaseSchemaValid
      ⟨"abc", "co", "US", "IT", ⟨0, 100, 0⟩, ⟨1, 0, 0⟩⟩ = false := by
  constructor
  · norm_num [FormSchema.specClaimedConstraints]
    decide
  · norm_num [FormSchema.businessCaseSchemaValid]

/-- C7 amended: the schema enforces the claimed constraints and exactly three
more — the cross-field refinement totalCost ≥ capex + opex, an initial
customer count of at least 1, and a growth-rate cap of 100; every record
satisfying all of these is accepted. -/
theorem claim_C7_schema_constraints (d : GenReport.BusinessCaseData) :
    FormSchema.businessCaseSchemaValid d = true ↔
      (FormSchema.specClaimedConstraints d = true ∧
        d.financials.capex + d.financials.opex ≤ d.financials.totalCost ∧
        1 ≤ d.customers.initialCount ∧ d.customers.growthRate ≤ 100) := by
  simp only [FormSchema.businessCaseSchemaValid, FormSchema.specClaimedConstraints,
    Bool.and_eq_true, decide_eq_true_eq]
  constructor
  · rintro ⟨⟨⟨⟨⟨⟨⟨⟨⟨⟨⟨h1, h2⟩, h3⟩, h4⟩, h5⟩, h6⟩, h7⟩, h8⟩, h9⟩, h10⟩, h11⟩, h12⟩
    exact ⟨⟨⟨⟨⟨⟨⟨⟨⟨⟨h1, h2⟩, h3⟩, h4⟩, h5⟩, h6⟩, h7⟩, by linarith⟩, h10⟩, h12⟩,
      h8, h9, h11⟩
  · rintro ⟨⟨⟨⟨⟨⟨⟨⟨⟨⟨h1, h2⟩, h3⟩, h4⟩, h5⟩, h6⟩, h7⟩, h8⟩, h9⟩, h10⟩, h11, h12, h13⟩
    exact ⟨⟨⟨⟨⟨⟨⟨⟨⟨⟨⟨h1, h2⟩, h3⟩, h4⟩, h5⟩, h6⟩, h7⟩, h11⟩, h12⟩, h9⟩, h13⟩, h10⟩
